import Mathlib

/-!
Shallow embedding of pl_bolts/models/self_supervised/fixmatch/datasets.py.

The Python module prepares semi-supervised (FixMatch/CoMatch) training data:
a stratified labeled/unlabeled index split (x_u_split), a multi-view
transform dispatcher (TransformSSL), index-restricted CIFAR wrappers
(CIFAR10SSL / CIFAR100SSL) and the get_train_dataset entry point.

Modelling conventions:
* Python runtime failures are an explicit error type PyError; a Python
  function that can raise is embedded as a function into Except PyError.
* np.random.choice (without replacement) and np.random.shuffle are
  nondeterministic; they are modelled by explicit oracle parameters
  (choice, shuffle) about which theorems assume exactly the guarantees
  numpy documents: a without-replacement draw of k elements from a
  population of at least k distinct elements returns k pairwise distinct
  members of the population (and raises ValueError otherwise), and
  shuffle permutes its input.
* Image data is an abstract type; transforms are abstract functions.
-/

/-- Runtime errors of the Python ecosystem that this module can surface. -/
inductive PyError where
  | keyError
  | assertError
  | valueError
  | unboundLocal
  | zeroDivision
  | indexError
  deriving DecidableEq

/-- Ceiling division on naturals: the value of math.ceil (a / b) for b > 0. -/
def natCeilDiv (a b : Nat) : Nat := (a + b - 1) / b

/-- The branch at the top of x_u_split:
if dataset == "cifar10": num_classes = 10
elif dataset == "cifar100": num_classes = 100 — and for any other name
num_classes stays unassigned, so the next read raises UnboundLocalError. -/
def numClassesOf (dataset : String) : Except PyError Nat :=
  if dataset = "cifar10" then Except.ok 10
  else if dataset = "cifar100" then Except.ok 100
  else Except.error PyError.unboundLocal

/-- np.where(labels == i)[0]: the indices j < len(labels) with labels[j] = i,
in increasing order. -/
def npWhere (labels : List Nat) (i : Nat) : List Nat :=
  (List.range labels.length).filter (fun j => labels.get? j == some i)

/-- np.random.choice(idx, k, False): a without-replacement draw, which raises
ValueError when k exceeds the population size; the realised draw is supplied
by the oracle parameter. -/
def npChoice (choice : List Nat → Nat → List Nat) (idx : List Nat) (k : Nat) :
    Except PyError (List Nat) :=
  if k ≤ idx.length then Except.ok (choice idx k) else Except.error PyError.valueError

/-- The guarantees numpy documents for a without-replacement draw from a
population of pairwise distinct elements: right length, pairwise distinct,
drawn from the population. -/
def ChoiceSpec (choice : List Nat → Nat → List Nat) : Prop :=
  ∀ idx k, idx.Nodup → k ≤ idx.length →
    (choice idx k).length = k ∧ (choice idx k).Nodup ∧ ∀ j ∈ choice idx k, j ∈ idx

/-- The guarantee for np.random.shuffle: the result is a permutation. -/
def ShuffleSpec (shuffle : List Nat → List Nat) : Prop :=
  ∀ l : List Nat, List.Perm (shuffle l) l

/-- The loop of x_u_split:
for i in classes: idx = np.where(labels == i)[0];
idx = np.random.choice(idx, label_per_class, False); labeled_idx.extend(idx)
— returning the per-class draws (whose concatenation is labeled_idx),
or the first ValueError raised. -/
def sampleClasses (choice : List Nat → Nat → List Nat) (labels : List Nat)
    (label_per_class : Nat) : List Nat → Except PyError (List (List Nat))
  | [] => Except.ok []
  | i :: is =>
    match npChoice choice (npWhere labels i) label_per_class with
    | Except.error e => Except.error e
    | Except.ok c =>
      match sampleClasses choice labels label_per_class is with
      | Except.error e => Except.error e
      | Except.ok cs => Except.ok (c :: cs)

/-- The replication factor applied to labeled_idx:
num_expand_x = math.ceil(batch_size * eval_step / num_labeled) when the
expansion branch is taken, and 1 (the list is left alone) otherwise. -/
def expandFactor (num_labeled eval_step batch_size : Nat) (expand_labels : Bool) : Nat :=
  if expand_labels || num_labeled < batch_size then
    natCeilDiv (batch_size * eval_step) num_labeled
  else 1

/-- The expansion step of x_u_split:
if expand_labels or num_labeled < batch_size:
  num_expand_x = math.ceil(batch_size * eval_step / num_labeled)
  labeled_idx = np.hstack([labeled_idx for _ in range(num_expand_x)])
A zero num_labeled raises ZeroDivisionError in the ceil, and a zero
num_expand_x makes np.hstack raise ValueError (empty concatenation). -/
def expandStep (num_labeled eval_step batch_size : Nat) (expand_labels : Bool)
    (labeled : List Nat) : Except PyError (List Nat) :=
  if expand_labels || num_labeled < batch_size then
    if num_labeled = 0 then Except.error PyError.zeroDivision
    else
      let num_expand_x := natCeilDiv (batch_size * eval_step) num_labeled
      if num_expand_x = 0 then Except.error PyError.valueError
      else Except.ok (List.flatten (List.replicate num_expand_x labeled))
  else Except.ok labeled

/-- x_u_split(dataset, labels, num_labeled, eval_step, expand_labels,
batch_size): the stratified labeled/unlabeled index split.  The unlabeled
indices are all of range(len(labels)); the labeled indices are
label_per_class = num_labeled // num_classes without-replacement draws per
class, checked by assert len(labeled_idx) == num_labeled, optionally
replicated, and shuffled. -/
def x_u_split (choice : List Nat → Nat → List Nat) (shuffle : List Nat → List Nat)
    (dataset : String) (labels : List Nat) (num_labeled eval_step : Nat)
    (expand_labels : Bool) (batch_size : Nat) :
    Except PyError (List Nat × List Nat) :=
  match numClassesOf dataset with
  | Except.error e => Except.error e
  | Except.ok num_classes =>
    let label_per_class := num_labeled / num_classes
    let unlabeled_idx := List.range labels.length
    match sampleClasses choice labels label_per_class (List.range num_classes) with
    | Except.error e => Except.error e
    | Except.ok chunks =>
      let labeled_idx := List.flatten chunks
      if labeled_idx.length = num_labeled then
        match expandStep num_labeled eval_step batch_size expand_labels labeled_idx with
        | Except.error e => Except.error e
        | Except.ok expanded => Except.ok (shuffle expanded, unlabeled_idx)
      else Except.error PyError.assertError

/-- A deterministic draw oracle used to exercise the theorems on concrete
inputs: take the first k elements of the population. -/
def choiceTake (idx : List Nat) (k : Nat) : List Nat := idx.take k

/-- A deterministic shuffle oracle: leave the list as it is. -/
def shuffleId (l : List Nat) : List Nat := l

/-- The possible results of TransformSSL.__call__: one, two or three
augmented views of the input. -/
inductive Views (α : Type) where
  | one (a : α)
  | two (a b : α)
  | three (a b c : α)

/-- How many views a TransformSSL.__call__ result carries. -/
def Views.count {α : Type} : Views α → Nat
  | Views.one _ => 1
  | Views.two _ _ => 2
  | Views.three _ _ _ => 3

/-- A TransformSSL instance after __init__: the four transform pipelines,
the normalization, and the configured mode.  (The pipelines themselves are
torchvision compositions; here they are abstract functions on images.) -/
structure TransformSSL (α : Type) where
  test_transforms : α → α
  weak : α → α
  strong1 : α → α
  strong2 : α → α
  normalize : α → α
  mode : String

/-- TransformSSL.__call__(x): dispatch on mode.
"test" → one view; "casual" → one view; "fixmatch" → two views;
anything else → three views. -/
def TransformSSL.call {α : Type} (t : TransformSSL α) (x : α) : Views α :=
  if t.mode = "test" then Views.one (t.normalize (t.test_transforms x))
  else
    let weak := t.weak x
    if t.mode = "casual" then Views.one (t.normalize weak)
    else
      let strong1 := t.strong1 x
      if t.mode = "fixmatch" then Views.two (t.normalize weak) (t.normalize strong1)
      else
        let strong2 := t.strong2 x
        Views.three (t.normalize weak) (t.normalize strong1) (t.normalize strong2)

/-- A torchvision base dataset after loading: its data array and its
targets, position-aligned. -/
structure BaseDataset (α : Type) where
  data : List α
  targets : List Nat

/-- An index-restricted SSL dataset: the data and targets arrays left after
the constructor of CIFAR10SSL / CIFAR100SSL ran.  (The transform argument
does not touch data or targets and is omitted.) -/
structure SSLDataset (α : Type) where
  data : List α
  targets : List Nat

/-- numpy fancy indexing xs[indexs]: position i of the result holds
xs[indexs[i]]; an out-of-range index raises IndexError. -/
def fancyIndex {α : Type} (xs : List α) : List Nat → Except PyError (List α)
  | [] => Except.ok []
  | i :: is =>
    match xs.get? i with
    | none => Except.error PyError.indexError
    | some a =>
      match fancyIndex xs is with
      | Except.error e => Except.error e
      | Except.ok ys => Except.ok (a :: ys)

/-- The shared body of CIFAR10SSL.__init__ and CIFAR100SSL.__init__:
if indexs is not None: self.data = self.data[indexs];
self.targets = np.array(self.targets)[indexs]. -/
def sslRestrict {α : Type} (base : BaseDataset α) :
    Option (List Nat) → Except PyError (SSLDataset α)
  | none => Except.ok { data := base.data, targets := base.targets }
  | some indexs =>
    match fancyIndex base.data indexs with
    | Except.error e => Except.error e
    | Except.ok d =>
      match fancyIndex base.targets indexs with
      | Except.error e => Except.error e
      | Except.ok t => Except.ok { data := d, targets := t }

/-- CIFAR10SSL(root, indexs, ...): restriction of the CIFAR10 base dataset
to the given index list. -/
def CIFAR10SSL {α : Type} (base : BaseDataset α) (indexs : Option (List Nat)) :
    Except PyError (SSLDataset α) :=
  sslRestrict base indexs

/-- CIFAR100SSL(root, indexs, ...): restriction of the CIFAR100 base
dataset to the given index list. -/
def CIFAR100SSL {α : Type} (base : BaseDataset α) (indexs : Option (List Nat)) :
    Except PyError (SSLDataset α) :=
  sslRestrict base indexs

/-- get_train_dataset(data_path, dataset, mode, num_labeled, batch_size,
eval_step, expand_labels).  In source order: the assert on mode, the
MAP_DATASET[dataset] lookup (KeyError on an unknown name; loading the base
dataset is modelled by the oracle parameter base), x_u_split on the base
targets, and the two index-restricted SSL datasets. -/
def get_train_dataset {α : Type} (choice : List Nat → Nat → List Nat)
    (shuffle : List Nat → List Nat) (base : String → BaseDataset α)
    (dataset mode : String) (num_labeled batch_size eval_step : Nat)
    (expand_labels : Bool) :
    Except PyError (SSLDataset α × SSLDataset α) :=
  if mode = "fixmatch" ∨ mode = "comatch" then
    if dataset = "cifar10" ∨ dataset = "cifar100" then
      let b := base dataset
      match x_u_split choice shuffle dataset b.targets num_labeled eval_step
          expand_labels batch_size with
      | Except.error e => Except.error e
      | Except.ok (train_labeled_idxs, train_unlabeled_idxs) =>
        match sslRestrict b (some train_labeled_idxs) with
        | Except.error e => Except.error e
        | Except.ok dl =>
          match sslRestrict b (some train_unlabeled_idxs) with
          | Except.error e => Except.error e
          | Except.ok du => Except.ok (dl, du)
    else Except.error PyError.keyError
  else Except.error PyError.assertError

/-- The concrete draw oracle meets the numpy guarantees. -/
theorem choiceTake_spec : ChoiceSpec choiceTake := by
  intro idx k hnd hk
  refine ⟨by simp [choiceTake, hk], hnd.sublist (List.take_sublist k idx), ?_⟩
  intro j hj
  exact List.mem_of_mem_take hj

/-- The identity shuffle is a permutation. -/
theorem shuffleId_spec : ShuffleSpec shuffleId := fun l => List.Perm.refl l

theorem npWhere_nodup (labels : List Nat) (i : Nat) : (npWhere labels i).Nodup :=
  (List.nodup_range labels.length).filter _

theorem mem_npWhere {labels : List Nat} {i j : Nat} :
    j ∈ npWhere labels i ↔ j < labels.length ∧ labels.get? j = some i := by
  simp [npWhere, List.mem_filter, List.mem_range]

theorem npChoice_ok {choice : List Nat → Nat → List Nat} {idx : List Nat} {k : Nat}
    {c : List Nat} (h : npChoice choice idx k = Except.ok c) :
    k ≤ idx.length ∧ c = choice idx k := by
  unfold npChoice at h
  split at h
  · simp only [Except.ok.injEq] at h
    exact ⟨by assumption, h.symm⟩
  · exact Except.noConfusion h

/-- What one per-class draw of x_u_split delivers: label_per_class pairwise
distinct indices of class i. -/
def GoodChunk (labels : List Nat) (lpc i : Nat) (c : List Nat) : Prop :=
  c.length = lpc ∧ c.Nodup ∧ ∀ j ∈ c, j ∈ npWhere labels i

theorem sampleClasses_ok_forall₂ {choice : List Nat → Nat → List Nat}
    (hc : ChoiceSpec choice) {labels : List Nat} {lpc : Nat} :
    ∀ {cls : List Nat} {chunks : List (List Nat)},
      sampleClasses choice labels lpc cls = Except.ok chunks →
      List.Forall₂ (GoodChunk labels lpc) cls chunks := by
  intro cls
  induction cls with
  | nil =>
    intro chunks h
    simp only [sampleClasses, Except.ok.injEq] at h
    subst h
    exact List.Forall₂.nil
  | cons i is ih =>
    intro chunks h
    simp only [sampleClasses] at h
    cases hnp : npChoice choice (npWhere labels i) lpc with
    | error e => rw [hnp] at h; exact Except.noConfusion h
    | ok c =>
      rw [hnp] at h
      cases hrec : sampleClasses choice labels lpc is with
      | error e => rw [hrec] at h; exact Except.noConfusion h
      | ok cs =>
        rw [hrec] at h
        simp only [Except.ok.injEq] at h
        subst h
        obtain ⟨hk, hc'⟩ := npChoice_ok hnp
        obtain ⟨hl, hnd, hmem⟩ := hc (npWhere labels i) lpc (npWhere_nodup labels i) hk
        exact List.Forall₂.cons ⟨hc' ▸ hl, hc' ▸ hnd, fun j hj => hmem j (hc' ▸ hj)⟩ (ih hrec)

theorem sampleClasses_error_of_small {choice : List Nat → Nat → List Nat}
    {labels : List Nat} {lpc : Nat} :
    ∀ {cls : List Nat}, (∃ i ∈ cls, (npWhere labels i).length < lpc) →
      sampleClasses choice labels lpc cls = Except.error PyError.valueError := by
  intro cls
  induction cls with
  | nil => rintro ⟨i, hi, -⟩; exact absurd hi (List.not_mem_nil i)
  | cons a as ih =>
    rintro ⟨i, hi, hsmall⟩
    simp only [sampleClasses]
    cases hnp : npChoice choice (npWhere labels a) lpc with
    | error e =>
      unfold npChoice at hnp
      split at hnp
      · exact Except.noConfusion hnp
      · simp only [Except.error.injEq] at hnp
        rw [hnp]
    | ok c =>
      rcases List.mem_cons.mp hi with rfl | hmem
      · obtain ⟨hk, -⟩ := npChoice_ok hnp
        exact absurd hk (Nat.not_le_of_lt hsmall)
      · rw [ih ⟨i, hmem, hsmall⟩]

theorem flatten_replicate_length {α : Type} (n : Nat) (l : List α) :
    (List.flatten (List.replicate n l)).length = n * l.length := by
  induction n with
  | zero => simp
  | succ k ih => simp [List.replicate_succ, ih, Nat.succ_mul, Nat.add_comm]

theorem expandStep_ok {nl es bs : Nat} {el : Bool} {pre out : List Nat}
    (h : expandStep nl es bs el pre = Except.ok out) :
    out = List.flatten (List.replicate (expandFactor nl es bs el) pre) ∧
      0 < expandFactor nl es bs el := by
  simp only [expandStep] at h
  unfold expandFactor
  split at h
  · rename_i hb
    rw [if_pos hb]
    split at h
    · exact Except.noConfusion h
    · split at h
      · exact Except.noConfusion h
      · rename_i hnz
        simp only [Except.ok.injEq] at h
        exact ⟨h.symm, Nat.pos_of_ne_zero hnz⟩
  · rename_i hb
    rw [if_neg hb]
    simp only [Except.ok.injEq] at h
    subst h
    simp

/-- Inversion of a successful x_u_split run: names for the class count, the
per-class draws, the assert, the expansion, the shuffle and the unlabeled
side. -/
theorem x_u_split_ok_inv {choice : List Nat → Nat → List Nat}
    {shuffle : List Nat → List Nat} {dataset : String} {labels : List Nat}
    {nl es : Nat} {el : Bool} {bs : Nat} {l u : List Nat}
    (h : x_u_split choice shuffle dataset labels nl es el bs = Except.ok (l, u)) :
    ∃ (nc : Nat) (chunks : List (List Nat)),
      numClassesOf dataset = Except.ok nc ∧
      sampleClasses choice labels (nl / nc) (List.range nc) = Except.ok chunks ∧
      (List.flatten chunks).length = nl ∧
      l = shuffle (List.flatten (List.replicate (expandFactor nl es bs el)
        (List.flatten chunks))) ∧
      u = List.range labels.length ∧ 0 < expandFactor nl es bs el := by
  unfold x_u_split at h
  cases hnc : numClassesOf dataset with
  | error e => rw [hnc] at h; exact Except.noConfusion h
  | ok nc =>
    rw [hnc] at h
    dsimp only at h
    cases hsc : sampleClasses choice labels (nl / nc) (List.range nc) with
    | error e => rw [hsc] at h; exact Except.noConfusion h
    | ok chunks =>
      rw [hsc] at h
      dsimp only at h
      split at h
      · rename_i hlen
        cases hex : expandStep nl es bs el (List.flatten chunks) with
        | error e => rw [hex] at h; exact Except.noConfusion h
        | ok expanded =>
          rw [hex] at h
          simp only [Except.ok.injEq, Prod.mk.injEq] at h
          obtain ⟨hout, hfac⟩ := expandStep_ok hex
          exact ⟨nc, chunks, rfl, hsc, hlen, by rw [← h.1, hout], h.2.symm, hfac⟩
      · exact Except.noConfusion h

/-- Claim C3: TransformSSL.__call__ returns exactly one augmented view of its
input when mode is "test" or "casual", exactly two views when mode is
"fixmatch", and exactly three views for any other mode value. -/
theorem transformSSL_call_view_count {α : Type} (t : TransformSSL α) (x : α) :
    (t.call x).count =
      if t.mode = "test" ∨ t.mode = "casual" then 1
      else if t.mode = "fixmatch" then 2
      else 3 := by
  unfold TransformSSL.call
  by_cases h1 : t.mode = "test"
  · simp [h1, Views.count]
  · by_cases h2 : t.mode = "casual"
    · simp [h1, h2, Views.count]
    · by_cases h3 : t.mode = "fixmatch"
      · simp [h1, h2, h3, Views.count]
      · simp [h1, h2, h3, Views.count]

/-- Claim C5: whenever x_u_split returns a result, its unlabeled side is
exactly range(len(labels)): the unlabeled indices cover the entire dataset. -/
theorem x_u_split_unlabeled_covers {choice : List Nat → Nat → List Nat}
    {shuffle : List Nat → List Nat} {dataset : String} {labels : List Nat}
    {nl es : Nat} {el : Bool} {bs : Nat} {l u : List Nat}
    (h : x_u_split choice shuffle dataset labels nl es el bs = Except.ok (l, u)) :
    u = List.range labels.length := by
  obtain ⟨nc, chunks, -, -, -, -, hu, -⟩ := x_u_split_ok_inv h
  exact hu

/-- Claim C5 witness: a concrete successful run on ten labels, one per
class, whose unlabeled side is all of range 10. -/
theorem x_u_split_unlabeled_covers_witness :
    ([0, 1, 2, 3, 4, 5, 6, 7, 8, 9] : List Nat) = List.range 10 :=
  x_u_split_unlabeled_covers
    (rfl : x_u_split choiceTake shuffleId ("cifar10") [0, 1, 2, 3, 4, 5, 6, 7, 8, 9]
      10 1 true 2 = Except.ok ([0, 1, 2, 3, 4, 5, 6, 7, 8, 9], [0, 1, 2, 3, 4, 5, 6, 7, 8, 9]))

/-- Claim C1 counterexample: with the expansion branch active (here
num_labeled = 10, eval_step = 1, batch_size = 16, expand_labels = true) the
returned labeled list has 20 elements, not the requested budget of 10. -/
theorem x_u_split_label_budget_cex :
    (x_u_split choiceTake shuffleId ("cifar10") [0, 1, 2, 3, 4, 5, 6, 7, 8, 9]
        10 1 true 16).map (fun p => p.1.length) = Except.ok 20 ∧ (20 : Nat) ≠ 10 :=
  ⟨rfl, by decide⟩

/-- Claim C1 amended: on every successful call the pre-expansion labeled
list has length num_labeled (enforced by the assert), so the returned
labeled list has length expandFactor * num_labeled; it equals num_labeled
itself whenever the expansion branch is skipped, i.e. when expand_labels is
disabled and num_labeled ≥ batch_size. -/
theorem x_u_split_labeled_length {choice : List Nat → Nat → List Nat}
    {shuffle : List Nat → List Nat} {dataset : String} {labels : List Nat}
    {nl es : Nat} {el : Bool} {bs : Nat} {l u : List Nat}
    (hs : ShuffleSpec shuffle)
    (h : x_u_split choice shuffle dataset labels nl es el bs = Except.ok (l, u)) :
    l.length = expandFactor nl es bs el * nl ∧
      (el = false → bs ≤ nl → l.length = nl) := by
  obtain ⟨nc, chunks, hnc, hsc, hlen, hl, hu, hfac⟩ := x_u_split_ok_inv h
  have hlength : l.length = expandFactor nl es bs el * nl := by
    rw [hl, (hs _).length_eq, flatten_replicate_length, hlen]
  refine ⟨hlength, fun hel hbs => ?_⟩
  have hone : expandFactor nl es bs el = 1 := by
    unfold expandFactor
    rw [hel]
    simp [Nat.not_lt.mpr hbs]
  rw [hlength, hone, Nat.one_mul]

/-- Claim C1 amended witness: the concrete run of the counterexample,
whose returned labeled list has expandFactor 10 1 16 true * 10 = 20
elements. -/
theorem x_u_split_labeled_length_witness :
    List.length ([0, 1, 2, 3, 4, 5, 6, 7, 8, 9, 0, 1, 2, 3, 4, 5, 6, 7, 8, 9] : List Nat) =
      expandFactor 10 1 16 true * 10 :=
  (x_u_split_labeled_length shuffleId_spec
    (rfl : x_u_split choiceTake shuffleId ("cifar10") [0, 1, 2, 3, 4, 5, 6, 7, 8, 9]
      10 1 true 16 =
      Except.ok ([0, 1, 2, 3, 4, 5, 6, 7, 8, 9, 0, 1, 2, 3, 4, 5, 6, 7, 8, 9],
        [0, 1, 2, 3, 4, 5, 6, 7, 8, 9]))).1

/-- Claim C2 counterexample: with expand_labels disabled but
num_labeled = 10 < batch_size = 11, the labeled list is still replicated:
the call returns 20 labeled indices instead of the 10 drawn. -/
theorem x_u_split_expand_iff_cex :
    (x_u_split choiceTake shuffleId ("cifar10") [0, 1, 2, 3, 4, 5, 6, 7, 8, 9]
        10 1 false 11).map (fun p => p.1.length) = Except.ok 20 ∧ (20 : Nat) ≠ 10 :=
  ⟨rfl, by decide⟩

/-- Claim C2 amended: the returned labeled list is (a shuffle of)
expandFactor copies of the drawn list of num_labeled indices, and the
replication branch is taken exactly when expand_labels is enabled or
num_labeled < batch_size; when expand_labels is disabled and
num_labeled ≥ batch_size the drawn list is returned without replication. -/
theorem x_u_split_expand_characterisation {choice : List Nat → Nat → List Nat}
    {shuffle : List Nat → List Nat} {dataset : String} {labels : List Nat}
    {nl es : Nat} {el : Bool} {bs : Nat} {l u : List Nat}
    (hs : ShuffleSpec shuffle)
    (h : x_u_split choice shuffle dataset labels nl es el bs = Except.ok (l, u)) :
    ∃ pre : List Nat, pre.length = nl ∧
      List.Perm l (List.flatten (List.replicate (expandFactor nl es bs el) pre)) ∧
      (el = false → bs ≤ nl → List.Perm l pre) := by
  obtain ⟨nc, chunks, hnc, hsc, hlen, hl, hu, hfac⟩ := x_u_split_ok_inv h
  refine ⟨List.flatten chunks, hlen, ?_, fun hel hbs => ?_⟩
  · rw [hl]
    exact hs _
  · have hone : expandFactor nl es bs el = 1 := by
      unfold expandFactor
      rw [hel]
      simp [Nat.not_lt.mpr hbs]
    rw [hl, hone]
    simpa using hs _

/-- Claim C2 amended witness: the concrete run of the counterexample; its
20 returned indices are two copies of a drawn list of 10. -/
theorem x_u_split_expand_characterisation_witness :
    ∃ pre : List Nat, pre.length = 10 ∧
      List.Perm ([0, 1, 2, 3, 4, 5, 6, 7, 8, 9, 0, 1, 2, 3, 4, 5, 6, 7, 8, 9] : List Nat)
        (List.flatten (List.replicate (expandFactor 10 1 11 false) pre)) ∧
      (false = false → 11 ≤ 10 →
        List.Perm ([0, 1, 2, 3, 4, 5, 6, 7, 8, 9, 0, 1, 2, 3, 4, 5, 6, 7, 8, 9] : List Nat) pre) :=
  x_u_split_expand_characterisation shuffleId_spec
    (rfl : x_u_split choiceTake shuffleId ("cifar10") [0, 1, 2, 3, 4, 5, 6, 7, 8, 9]
      10 1 false 11 =
      Except.ok ([0, 1, 2, 3, 4, 5, 6, 7, 8, 9, 0, 1, 2, 3, 4, 5, 6, 7, 8, 9],
        [0, 1, 2, 3, 4, 5, 6, 7, 8, 9]))

/-- Claim C4: for each class i below num_classes, the loop of x_u_split
draws exactly num_labeled // num_classes indices of class i, pairwise
distinct (the draw is without replacement) and correctly labeled, so the
pre-expansion labeled list is the concatenation of such per-class chunks. -/
theorem sampleClasses_per_class_draws {choice : List Nat → Nat → List Nat}
    {labels : List Nat} {dataset : String} {nl nc : Nat} {chunks : List (List Nat)}
    (hc : ChoiceSpec choice)
    (hnc : numClassesOf dataset = Except.ok nc)
    (hsc : sampleClasses choice labels (nl / nc) (List.range nc) = Except.ok chunks) :
    chunks.length = nc ∧
      ∀ i, i < nc →
        (chunks.getD i []).length = nl / nc ∧
        (chunks.getD i []).Nodup ∧
        ∀ j ∈ chunks.getD i [], j < labels.length ∧ labels.get? j = some i := by
  have hf := sampleClasses_ok_forall₂ hc hsc
  obtain ⟨hlen, hget⟩ := List.forall₂_iff_get.mp hf
  rw [List.length_range] at hlen
  refine ⟨hlen.symm, fun i hi => ?_⟩
  have h₁ : i < (List.range nc).length := by simpa using hi
  have h₂ : i < chunks.length := by rw [← hlen]; exact hi
  have hgood := hget i h₁ h₂
  rw [List.get_range] at hgood
  have hgd : chunks.getD i [] = chunks.get ⟨i, h₂⟩ := by
    simp [List.getD_eq_getElem?_getD, List.getElem?_eq_getElem h₂]
  unfold GoodChunk at hgood
  obtain ⟨ha, hb, hm⟩ := hgood
  rw [hgd]
  exact ⟨ha, hb, fun j hj => mem_npWhere.mp (hm j hj)⟩

/-- Claim C4 witness: ten labels, one per class; the per-class draws are
the singleton chunks [[0], [1], ..., [9]]. -/
theorem sampleClasses_per_class_draws_witness :
    List.length ([[0], [1], [2], [3], [4], [5], [6], [7], [8], [9]] : List (List Nat)) = 10 ∧
      ∀ i, i < 10 →
        (List.getD ([[0], [1], [2], [3], [4], [5], [6], [7], [8], [9]] : List (List Nat))
            i []).length = 10 / 10 ∧
        (List.getD ([[0], [1], [2], [3], [4], [5], [6], [7], [8], [9]] : List (List Nat))
            i []).Nodup ∧
        ∀ j ∈ List.getD ([[0], [1], [2], [3], [4], [5], [6], [7], [8], [9]] : List (List Nat))
            i [],
          j < ([0, 1, 2, 3, 4, 5, 6, 7, 8, 9] : List Nat).length ∧
            ([0, 1, 2, 3, 4, 5, 6, 7, 8, 9] : List Nat).get? j = some i :=
  sampleClasses_per_class_draws choiceTake_spec
    (rfl : numClassesOf ("cifar10") = Except.ok 10)
    (rfl : sampleClasses choiceTake [0, 1, 2, 3, 4, 5, 6, 7, 8, 9] (10 / 10)
      (List.range 10) = Except.ok [[0], [1], [2], [3], [4], [5], [6], [7], [8], [9]])

/-- A trivial concrete base-dataset oracle for exercising get_train_dataset
on its early-error paths. -/
def emptyBase : String → BaseDataset Nat := fun _ => { data := [], targets := [] }

/-- Claim C6: for every dataset name other than "cifar10" and "cifar100",
x_u_split fails with the UnboundLocalError of reading the never-assigned
num_classes, and get_train_dataset (called with an accepted mode) fails
with the KeyError of the MAP_DATASET lookup. -/
theorem unknown_dataset_errors {α : Type} (choice : List Nat → Nat → List Nat)
    (shuffle : List Nat → List Nat) (base : String → BaseDataset α)
    (dataset mode : String) (labels : List Nat) (nl es : Nat) (el : Bool) (bs : Nat)
    (h1 : dataset ≠ "cifar10") (h2 : dataset ≠ "cifar100")
    (hm : mode = "fixmatch" ∨ mode = "comatch") :
    x_u_split choice shuffle dataset labels nl es el bs =
        Except.error PyError.unboundLocal ∧
      get_train_dataset choice shuffle base dataset mode nl bs es el =
        Except.error PyError.keyError := by
  have hnc : numClassesOf dataset = Except.error PyError.unboundLocal := by
    unfold numClassesOf
    rw [if_neg h1, if_neg h2]
  constructor
  · unfold x_u_split
    rw [hnc]
  · unfold get_train_dataset
    rw [if_pos hm, if_neg (fun hor => Or.elim hor h1 h2)]

/-- Claim C6 witness: the unknown name "mnist". -/
theorem unknown_dataset_errors_witness :
    x_u_split choiceTake shuffleId ("mnist") [] 10 1 true 2 =
        Except.error PyError.unboundLocal ∧
      get_train_dataset choiceTake shuffleId emptyBase ("mnist") ("fixmatch") 10 2 1 true =
        Except.error PyError.keyError :=
  unknown_dataset_errors choiceTake shuffleId emptyBase ("mnist") ("fixmatch") [] 10 1 true 2
    (by decide) (by decide) (Or.inl rfl)

/-- Claim C7: if some class below num_classes has fewer occurrences in
labels than label_per_class = num_labeled // num_classes, x_u_split fails
with the ValueError of the without-replacement np.random.choice. -/
theorem x_u_split_insufficient_class_error {choice : List Nat → Nat → List Nat}
    {shuffle : List Nat → List Nat} {dataset : String} {labels : List Nat}
    {nl es : Nat} {el : Bool} {bs nc i : Nat}
    (hnc : numClassesOf dataset = Except.ok nc) (hi : i < nc)
    (hsmall : (npWhere labels i).length < nl / nc) :
    x_u_split choice shuffle dataset labels nl es el bs =
      Except.error PyError.valueError := by
  unfold x_u_split
  rw [hnc]
  dsimp only
  rw [sampleClasses_error_of_small ⟨i, List.mem_range.mpr hi, hsmall⟩]

/-- Claim C7 witness: a single label of class 0 with a budget of 10 over
ten classes; class 1 has no occurrences at all. -/
theorem x_u_split_insufficient_class_error_witness :
    x_u_split choiceTake shuffleId ("cifar10") [0] 10 1 true 2 =
      Except.error PyError.valueError :=
  x_u_split_insufficient_class_error
    (rfl : numClassesOf ("cifar10") = Except.ok 10)
    (show 1 < 10 by decide)
    (show (npWhere [0] 1).length < 10 / 10 by decide)

/-- Claim C8: get_train_dataset asserts mode in ["fixmatch", "comatch"]
before anything else, so every other mode — including the "casual" and
"test" accepted by TransformSSL — fails with AssertionError. -/
theorem get_train_dataset_mode_assert {α : Type} (choice : List Nat → Nat → List Nat)
    (shuffle : List Nat → List Nat) (base : String → BaseDataset α)
    (dataset mode : String) (nl bs es : Nat) (el : Bool)
    (h1 : mode ≠ "fixmatch") (h2 : mode ≠ "comatch") :
    get_train_dataset choice shuffle base dataset mode nl bs es el =
      Except.error PyError.assertError := by
  unfold get_train_dataset
  rw [if_neg (fun hor => Or.elim hor h1 h2)]

/-- Claim C8 witness: the modes "casual" and "test" are both rejected. -/
theorem get_train_dataset_mode_assert_witness :
    get_train_dataset choiceTake shuffleId emptyBase ("cifar10") ("casual") 10 2 1 true =
        Except.error PyError.assertError ∧
      get_train_dataset choiceTake shuffleId emptyBase ("cifar10") ("test") 10 2 1 true =
        Except.error PyError.assertError :=
  ⟨get_train_dataset_mode_assert choiceTake shuffleId emptyBase ("cifar10") ("casual")
      10 2 1 true (by decide) (by decide),
    get_train_dataset_mode_assert choiceTake shuffleId emptyBase ("cifar10") ("test")
      10 2 1 true (by decide) (by decide)⟩

theorem forall₂_mem_right {α β : Type} {R : α → β → Prop} :
    ∀ {l₁ : List α} {l₂ : List β}, List.Forall₂ R l₁ l₂ →
      ∀ b ∈ l₂, ∃ a ∈ l₁, R a b := by
  intro l₁ l₂ h
  induction h with
  | nil => intro b hb; exact absurd hb (List.not_mem_nil b)
  | cons hR _ ih =>
    intro b hb
    rcases List.mem_cons.mp hb with rfl | hb2
    · exact ⟨_, List.mem_cons_self _ _, hR⟩
    · obtain ⟨a, ha, hr⟩ := ih b hb2
      exact ⟨a, List.mem_cons_of_mem _ ha, hr⟩

/-- Claim C9: every labeled index returned by x_u_split lies in the
returned unlabeled index list — labeled is a subset of unlabeled — and as
soon as the budget is positive the two lists genuinely overlap. -/
theorem x_u_split_labeled_subset_unlabeled {choice : List Nat → Nat → List Nat}
    {shuffle : List Nat → List Nat} {dataset : String} {labels : List Nat}
    {nl es : Nat} {el : Bool} {bs : Nat} {l u : List Nat}
    (hc : ChoiceSpec choice) (hs : ShuffleSpec shuffle)
    (h : x_u_split choice shuffle dataset labels nl es el bs = Except.ok (l, u)) :
    (∀ j ∈ l, j ∈ u) ∧ (0 < nl → ∃ j, j ∈ l ∧ j ∈ u) := by
  obtain ⟨nc, chunks, hnc, hsc, hlen, hl, hu, hfac⟩ := x_u_split_ok_inv h
  have hf := sampleClasses_ok_forall₂ hc hsc
  have hflat : ∀ j ∈ List.flatten chunks, j < labels.length := by
    intro j hj
    obtain ⟨c, hcin, hjc⟩ := List.mem_flatten.mp hj
    obtain ⟨i, -, hgood⟩ := forall₂_mem_right hf c hcin
    unfold GoodChunk at hgood
    exact (mem_npWhere.mp (hgood.2.2 j hjc)).1
  have hmem : ∀ j ∈ l, j ∈ u := by
    intro j hj
    rw [hl] at hj
    obtain ⟨c, hcin, hjc⟩ := List.mem_flatten.mp ((hs _).subset hj)
    have hce : c = List.flatten chunks := List.eq_of_mem_replicate hcin
    subst hce
    rw [hu]
    exact List.mem_range.mpr (hflat j hjc)
  refine ⟨hmem, fun hnl => ?_⟩
  have hlength : l.length = expandFactor nl es bs el * nl := by
    rw [hl, (hs _).length_eq, flatten_replicate_length, hlen]
  have hpos : 0 < l.length := by
    rw [hlength]
    exact Nat.mul_pos hfac hnl
  obtain ⟨j, hjl⟩ := List.exists_mem_of_length_pos hpos
  exact ⟨j, hjl, hmem j hjl⟩

/-- Claim C9 witness: the concrete run on ten labels, one per class, where
both sides are [0, ..., 9]. -/
theorem x_u_split_labeled_subset_unlabeled_witness :
    (∀ j ∈ ([0, 1, 2, 3, 4, 5, 6, 7, 8, 9] : List Nat),
        j ∈ ([0, 1, 2, 3, 4, 5, 6, 7, 8, 9] : List Nat)) ∧
      (0 < 10 → ∃ j, j ∈ ([0, 1, 2, 3, 4, 5, 6, 7, 8, 9] : List Nat) ∧
        j ∈ ([0, 1, 2, 3, 4, 5, 6, 7, 8, 9] : List Nat)) :=
  x_u_split_labeled_subset_unlabeled choiceTake_spec shuffleId_spec
    (rfl : x_u_split choiceTake shuffleId ("cifar10") [0, 1, 2, 3, 4, 5, 6, 7, 8, 9]
      10 1 true 2 = Except.ok ([0, 1, 2, 3, 4, 5, 6, 7, 8, 9], [0, 1, 2, 3, 4, 5, 6, 7, 8, 9]))

theorem fancyIndex_ok {α : Type} {xs : List α} :
    ∀ {is : List Nat} {ys : List α}, fancyIndex xs is = Except.ok ys →
      ys.length = is.length ∧ ∀ k : Nat, ys.get? k = (is.get? k).bind xs.get? := by
  intro is
  induction is with
  | nil =>
    intro ys h
    simp only [fancyIndex, Except.ok.injEq] at h
    subst h
    exact ⟨rfl, fun k => by cases k <;> rfl⟩
  | cons i is ih =>
    intro ys h
    simp only [fancyIndex] at h
    cases hget : xs.get? i with
    | none => rw [hget] at h; exact Except.noConfusion h
    | some a =>
      rw [hget] at h
      cases hrec : fancyIndex xs is with
      | error e => rw [hrec] at h; exact Except.noConfusion h
      | ok zs =>
        rw [hrec] at h
        simp only [Except.ok.injEq] at h
        subst h
        obtain ⟨hlen, hk⟩ := ih hrec
        refine ⟨by simp [hlen], fun k => ?_⟩
        cases k with
        | zero => simpa using hget.symm
        | succ n => simpa using hk n

/-- Claim C10: constructing CIFAR10SSL or CIFAR100SSL with an index list
keeps data and targets aligned: position k of the result holds the base
data and the base target at position indexs[k], and both arrays have
length len(indexs) (duplicate indices produce duplicate samples). -/
theorem cifar_ssl_index_alignment {α : Type} {base : BaseDataset α}
    {indexs : List Nat} {d : SSLDataset α}
    (h : CIFAR10SSL base (some indexs) = Except.ok d ∨
      CIFAR100SSL base (some indexs) = Except.ok d) :
    d.data.length = indexs.length ∧ d.targets.length = indexs.length ∧
      ∀ k : Nat, d.data.get? k = (indexs.get? k).bind base.data.get? ∧
        d.targets.get? k = (indexs.get? k).bind base.targets.get? := by
  have hr : sslRestrict base (some indexs) = Except.ok d := by
    rcases h with h | h
    · exact h
    · exact h
  simp only [sslRestrict] at hr
  cases hd : fancyIndex base.data indexs with
  | error e => rw [hd] at hr; exact Except.noConfusion hr
  | ok dd =>
    rw [hd] at hr
    cases ht : fancyIndex base.targets indexs with
    | error e => rw [ht] at hr; exact Except.noConfusion hr
    | ok tt =>
      rw [ht] at hr
      simp only [Except.ok.injEq] at hr
      subst hr
      obtain ⟨hl1, hk1⟩ := fancyIndex_ok hd
      obtain ⟨hl2, hk2⟩ := fancyIndex_ok ht
      exact ⟨hl1, hl2, fun k => ⟨hk1 k, hk2 k⟩⟩

/-- Claim C10 witness: a three-element base dataset restricted to the index
list [2, 0, 2]; the duplicate index 2 duplicates its sample. -/
theorem cifar_ssl_index_alignment_witness :
    ([30, 10, 30] : List Nat).length = ([2, 0, 2] : List Nat).length ∧
      ([7, 5, 7] : List Nat).length = ([2, 0, 2] : List Nat).length ∧
      ∀ k : Nat,
        ([30, 10, 30] : List Nat).get? k =
            (([2, 0, 2] : List Nat).get? k).bind ([10, 20, 30] : List Nat).get? ∧
          ([7, 5, 7] : List Nat).get? k =
            (([2, 0, 2] : List Nat).get? k).bind ([5, 6, 7] : List Nat).get? :=
  cifar_ssl_index_alignment
    (Or.inl (rfl : CIFAR10SSL ({ data := [10, 20, 30], targets := [5, 6, 7] } : BaseDataset Nat)
      (some [2, 0, 2]) = Except.ok { data := [30, 10, 30], targets := [7, 5, 7] }))
